import Mathlib

/-!
Verification of the BrowserAI MCP core (src/utils.js and the server file).

A shallow embedding of the core functions of the repository:

* `poll_task_result` — the submit-once / poll-until-terminal loop (src/utils.js).
* `send_session_instructions` — the instruction dispatcher (src/utils.js).
* `create_tool_fn` — the tool-invocation error wrapper (src/utils.js).
* `createSessionManager` — the in-memory session registry (server file).
* `start_new_session` (first server variant) — task creation tool.

Effectful JavaScript is modelled by explicit event traces: each outbound
HTTP request, each fixed delay and each progress report becomes one event
in a list, and the poll loop — which in the source reads one HTTP response
per iteration — is driven by the list of responses the remote service
would return, in order.  A run that exhausts that list without reaching a
terminal status is `none` (the source loop would keep polling).
-/

namespace BrowserAI

/-- A JSON value, as produced by `response.json()` in the source. -/
inductive Json where
  | null
  | bool (b : Bool)
  | num (n : Int)
  | str (s : String)
  | arr (elems : List Json)
  | obj (fields : List (String × Json))

/-- Field lookup on a parsed JSON object (`data.executionId` etc.);
`none` both when the value is not an object and when the key is absent. -/
def Json.lookup (j : Json) (k : String) : Option Json :=
  match j with
  | .obj fields => fields.lookup k
  | _ => none

/-- JavaScript truthiness of a JSON value (`if (task_id)` in the source):
`null`, `false`, `0` and `""` are falsy, everything else is truthy. -/
def Json.truthy : Json → Bool
  | .null => false
  | .bool b => b
  | .num n => n != 0
  | .str s => s != ""
  | .arr _ => true
  | .obj _ => true

/-- JSON string quoting used by `JSON.stringify`: wraps in double quotes
and escapes the quote, backslash and common control characters. -/
def quoteJsonString (s : String) : String :=
  let esc : Char → String := fun c =>
    if c = '"' then "\\\""
    else if c = '\\' then "\\\\"
    else if c = '\n' then "\\n"
    else if c = '\r' then "\\r"
    else if c = '\t' then "\\t"
    else String.singleton c
  "\"" ++ String.join (s.data.map esc) ++ "\""

mutual

/-- Model of `JSON.stringify` on parsed JSON values. -/
def Json.stringify : Json → String
  | .null => "null"
  | .bool true => "true"
  | .bool false => "false"
  | .num n => toString n
  | .str s => quoteJsonString s
  | .arr elems => "[" ++ Json.stringifyElems elems ++ "]"
  | .obj fields => "\x7b" ++ Json.stringifyFields fields ++ "\x7d"

/-- Comma-separated stringification of the elements of a JSON array. -/
def Json.stringifyElems : List Json → String
  | [] => ""
  | [x] => Json.stringify x
  | x :: y :: xs => Json.stringify x ++ "," ++ Json.stringifyElems (y :: xs)

/-- Comma-separated stringification of the fields of a JSON object. -/
def Json.stringifyFields : List (String × Json) → String
  | [] => ""
  | [(k, v)] => quoteJsonString k ++ ":" ++ Json.stringify v
  | (k, v) :: f :: fs =>
      quoteJsonString k ++ ":" ++ Json.stringify v ++ "," ++ Json.stringifyFields (f :: fs)

end

/-- One parsed response of `GET /tasks/{id}`: `result_data` in the source,
with the three fields the poll loop reads. -/
structure TaskResponse where
  status : String
  result : Json := Json.null
  error : String := ""

/-- How a run of the poll loop ends: the `return result_data.result` path
or the thrown `Task ... failed: ...` error (its exact message). -/
inductive PollOutcome where
  | success (result : Json)
  | failed (msg : String)

/-- Observable events of a run: outbound GET / POST requests (with their
URL), `reportProgress` calls, and `setTimeout` delays (in milliseconds). -/
inductive Ev where
  | get (url : String)
  | post (url : String)
  | progress (p total : Nat)
  | delay (ms : Nat)
deriving DecidableEq, Repr

/-- Is this event an HTTP GET (a poll request)? -/
def Ev.isGet : Ev → Bool
  | .get _ => true
  | _ => false

/-- Is this event a fixed delay? -/
def Ev.isDelay : Ev → Bool
  | .delay _ => true
  | _ => false

/-- Is this event a progress report? -/
def Ev.isProgress : Ev → Bool
  | .progress _ _ => true
  | _ => false

/-- The poll URL `https://browser.ai/api/v1/tasks/${task_id}`. -/
def taskUrl (task_id : String) : String :=
  "https://browser.ai/api/v1/tasks/" ++ task_id

/-- Is this status terminal-success (`['finalized','awaiting'].includes`)? -/
def isTerminalSuccess (s : String) : Bool :=
  s == "finalized" || s == "awaiting"

/-- The body of `poll_task_result`: `idx` is the loop counter, `hasSink`
whether `reportProgress` is a function, and `responses` the successive
bodies the remote returns for `GET /tasks/{task_id}`.  Each iteration
issues one GET, reports progress (incrementing `idx`) when a sink is
present, returns the `result` field on `finalized`/`awaiting`, throws on
`failed`, and otherwise waits 3000 ms and repeats. -/
def poll_task_result_aux (task_id : String) (hasSink : Bool) (idx : Nat) :
    List TaskResponse → Option (List Ev × PollOutcome)
  | [] => none
  | r :: rest =>
    let evs := [Ev.get (taskUrl task_id)] ++
      (if hasSink then [Ev.progress idx 20] else [])
    let idx' := if hasSink then idx + 1 else idx
    if isTerminalSuccess r.status then
      some (evs, .success r.result)
    else if r.status == "failed" then
      some (evs, .failed ("Task " ++ task_id ++ " failed: " ++ r.error))
    else
      match poll_task_result_aux task_id hasSink idx' rest with
      | none => none
      | some (tail, out) => some (evs ++ [Ev.delay 3000] ++ tail, out)

/-- Model of `poll_task_result` from src/utils.js, started with `idx = 0`. -/
def poll_task_result (task_id : String) (hasSink : Bool)
    (responses : List TaskResponse) : Option (List Ev × PollOutcome) :=
  poll_task_result_aux task_id hasSink 0 responses

/-- A status that keeps the loop running: anything other than
`finalized`, `awaiting` and `failed`. -/
def nonterminalStatus (s : String) : Bool :=
  !(isTerminalSuccess s) && s != "failed"

mutual

/-- JavaScript string coercion of a JSON value, as in a template literal
`${task_id}`: arrays join their elements with commas, objects render as
`[object Object]`. -/
def Json.templateString : Json → String
  | .null => "null"
  | .bool true => "true"
  | .bool false => "false"
  | .num n => toString n
  | .str s => s
  | .arr elems => Json.templateJoin elems
  | .obj _ => "[object Object]"

/-- Comma join of array elements under JS string coercion. -/
def Json.templateJoin : List Json → String
  | [] => ""
  | [x] => Json.templateString x
  | x :: y :: xs => Json.templateString x ++ "," ++ Json.templateJoin (y :: xs)

end

/-- The instructions URL `https://browser.ai/api/v1/tasks/${executionId}/instructions`. -/
def instructionsUrl (executionId : String) : String :=
  "https://browser.ai/api/v1/tasks/" ++ executionId ++ "/instructions"

/-- The HTTP response to the dispatch POST, with the fields the source
reads: `ok`, `status`, `statusText`, the `response.text()` body used on
the error path and the `response.json()` body used on the success path. -/
structure HttpResponse where
  ok : Bool
  status : Nat
  statusText : String
  bodyText : String := ""
  body : Json := Json.null

/-- The error taxonomy of the dispatcher and tools (§7 of the design):
each variant carries the exact message string the source throws. -/
inductive DispatchError where
  | requestFailed (msg : String)
  | missingIdentifier (msg : String)
  | taskFailed (msg : String)

/-- The thrown message on a missing execution identifier. -/
def noTaskIdMsg : String :=
  "No task ID received from API after sending instructions"

/-- Model of `send_session_instructions` from src/utils.js: POST the batch; on a
non-ok response throw `Failed to send instructions: ...`; otherwise read
`data.executionId`, wait 1000 ms, and if the id is truthy poll it and
return `JSON.stringify({executionId: task_id, result})`, else throw the
missing-identifier error.  `resp` is the POST response, `pollResponses`
the subsequent poll bodies. -/
def send_session_instructions (executionId : String) (resp : HttpResponse)
    (pollResponses : List TaskResponse) (hasSink : Bool) :
    Option (List Ev × Except DispatchError String) :=
  let url := instructionsUrl executionId
  if !resp.ok then
    some ([Ev.post url],
      .error (.requestFailed ("Failed to send instructions: " ++ toString resp.status ++ " "
        ++ resp.statusText ++ " - " ++ resp.bodyText)))
  else
    let data := resp.body
    let pre := [Ev.post url, Ev.delay 1000]
    match data.lookup "executionId" with
    | some v =>
      if v.truthy then
        match poll_task_result v.templateString hasSink pollResponses with
        | none => none
        | some (evs, .success r) =>
            some (pre ++ evs,
              .ok (Json.stringify (.obj [("executionId", v), ("result", r)])))
        | some (evs, .failed m) => some (pre ++ evs, .error (.taskFailed m))
      else some (pre, .error (.missingIdentifier noTaskIdMsg))
    | none => some (pre, .error (.missingIdentifier noTaskIdMsg))

/-- The `e.response` object of a caught error in `create_tool_fn`:
status data plus the outcome of `await e.response.text()`, which may
itself fail (the `catch (textError)` branch). -/
structure ErrorResponse where
  status : Nat
  statusText : String
  textResult : Except Unit String

/-- A caught JavaScript error value, with the fields `create_tool_fn`
inspects: `name`, `message`, whether it is a `TypeError`, and an optional
embedded HTTP response. -/
structure JsError where
  name : String := "Error"
  message : String := ""
  isTypeError : Bool := false
  response : Option ErrorResponse := none

/-- What the wrapper re-signals: a translated HTTP or network error
(with its exact message), or the original error passed through. -/
inductive WrappedError where
  | httpError (msg : String)
  | networkError (msg : String)
  | rethrown (e : JsError)

/-- The counter bump `debug_stats.tool_calls[name] = (debug_stats.tool_calls[name] || 0) + 1`. -/
def bump_tool_calls (stats : List (String × Nat)) (name : String) :
    List (String × Nat) :=
  match stats.lookup name with
  | some n => stats.map fun p => if p.1 == name then (p.1, n + 1) else p
  | none => stats ++ [(name, 1)]

/-- Model of `create_tool_fn` from src/utils.js, applied to the outcome of one
invocation of the wrapped implementation: bump the per-name call counter,
pass a success through unchanged, and translate a failure — an error with
an embedded response becomes `HTTP {status}: {body or statusText or
fallback}`, a fetch/`TypeError` failure becomes `Network error: ...`, and
anything else is re-thrown unchanged. -/
def create_tool_fn {α : Type} (stats : List (String × Nat)) (name : String)
    (runResult : Except JsError α) :
    List (String × Nat) × Except WrappedError α :=
  let stats := bump_tool_calls stats name
  match runResult with
  | .ok v => (stats, .ok v)
  | .error e =>
    match e.response with
    | some r =>
      let error_text := match r.textResult with
        | .ok t => t
        | .error _ => ""
      if error_text.length != 0 then
        (stats, .error (.httpError ("HTTP " ++ toString r.status ++ ": " ++ error_text)))
      else
        (stats, .error (.httpError ("HTTP " ++ toString r.status ++ ": " ++
          (if r.statusText == "" then "Unknown HTTP error" else r.statusText))))
    | none =>
      if e.name == "FetchError" || e.isTypeError then
        (stats, .error (.networkError ("Network error: " ++ e.message)))
      else
        (stats, .error (.rethrown e))

/-- One record of the session registry: `{created, lastActivity}`. -/
structure SessionRecord where
  created : Nat
  lastActivity : Nat
deriving DecidableEq, Repr

/-- The `active_sessions` map of `createSessionManager`, modelled as an
insertion-ordered association list with unique keys (a JS `Map`). -/
abbrev Registry := List (String × SessionRecord)

/-- Model of `track_session(id)`: `active_sessions.set(id, {created: now,
lastActivity: now})` — a `Map.set` replaces an existing entry in place,
otherwise appends. -/
def track_session (reg : Registry) (id : String) (now : Nat) : Registry :=
  if reg.any (fun p => p.1 == id) then
    reg.map fun p => if p.1 == id then (p.1, ⟨now, now⟩) else p
  else
    reg ++ [(id, ⟨now, now⟩)]

/-- Model of `update_activity(id)`: set `lastActivity` to now if the id is known,
otherwise leave the map untouched. -/
def update_activity (reg : Registry) (id : String) (now : Nat) : Registry :=
  reg.map fun p => if p.1 == id then (p.1, { p.2 with lastActivity := now }) else p

/-- Model of `get_sessions()`: `Array.from(active_sessions.entries())`. -/
def get_sessions (reg : Registry) : List (String × SessionRecord) := reg

/-- Model of `remove_session(id)`: `active_sessions.delete(id)`. -/
def remove_session (reg : Registry) (id : String) : Registry :=
  reg.filter fun p => p.1 != id

/-- What a tool hands back to the host: a string, or a raw structured
JSON value (the `return data;` path of the first `start_new_session`). -/
inductive ToolReturn where
  | str (s : String)
  | json (j : Json)

/-- Does the tool return a string payload? -/
def ToolReturn.isString : ToolReturn → Bool
  | .str _ => true
  | .json _ => false

/-- The task-creation URL. -/
def tasksUrl : String := "https://browser.ai/api/v1/tasks"

/-- The first server variant of `start_new_session`, from the POST
onward: `data` is the parsed body of the `POST /tasks` response (the
variant never checks `response.ok`).  If `data.executionId` is truthy
the task is polled and the result stringified; otherwise the variant
does `return data;` — the raw parsed object. -/
def start_new_session_v1 (data : Json) (pollResponses : List TaskResponse)
    (hasSink : Bool) : Option (List Ev × Except DispatchError ToolReturn) :=
  match data.lookup "executionId" with
  | some v =>
    if v.truthy then
      match poll_task_result v.templateString hasSink pollResponses with
      | none => none
      | some (evs, .success r) =>
          some (Ev.post tasksUrl :: evs,
            .ok (.str (Json.stringify (.obj [("executionId", v), ("result", r)]))))
      | some (evs, .failed m) => some (Ev.post tasksUrl :: evs, .error (.taskFailed m))
    else some ([Ev.post tasksUrl], .ok (.json data))
  | none => some ([Ev.post tasksUrl], .ok (.json data))

/-- The events of one loop iteration: the GET, plus the progress report
when a sink is present. -/
def stepEvs (task_id : String) (hasSink : Bool) (idx : Nat) : List Ev :=
  [Ev.get (taskUrl task_id)] ++ (if hasSink then [Ev.progress idx 20] else [])

/-- Does the wrapper's outcome signal an error to the caller? -/
def isSignalledError {α : Type} : Except WrappedError α → Bool
  | .error _ => true
  | .ok _ => false

/-! ## Lemmas about the poll loop -/

/-- A non-terminal status is neither terminal-success nor `failed`. -/
lemma nonterminal_elim {s : String} (h : nonterminalStatus s = true) :
    isTerminalSuccess s = false ∧ (s == "failed") = false := by
  simp only [nonterminalStatus, Bool.and_eq_true, Bool.not_eq_true', bne_iff_ne] at h
  exact ⟨h.1, by simpa using h.2⟩

/-- On a terminal-success response the loop returns its `result` at once. -/
lemma aux_terminal {r : TaskResponse} (task_id : String) (hasSink : Bool) (idx : Nat)
    (rest : List TaskResponse) (h : isTerminalSuccess r.status = true) :
    poll_task_result_aux task_id hasSink idx (r :: rest) =
      some (stepEvs task_id hasSink idx, .success r.result) := by
  simp [poll_task_result_aux, stepEvs, h]

/-- On a `failed` response the loop throws the failure message at once. -/
lemma aux_failed {r : TaskResponse} (task_id : String) (hasSink : Bool) (idx : Nat)
    (rest : List TaskResponse) (h : r.status = "failed") :
    poll_task_result_aux task_id hasSink idx (r :: rest) =
      some (stepEvs task_id hasSink idx,
        .failed ("Task " ++ task_id ++ " failed: " ++ r.error)) := by
  have h1 : isTerminalSuccess "failed" = false := by decide
  simp [poll_task_result_aux, stepEvs, h, h1]

/-- On a non-terminal response the loop delays 3000 ms and continues on
the remaining responses, with the loop counter advanced when a sink is
present. -/
lemma aux_cons_nonterminal {r : TaskResponse} (task_id : String) (hasSink : Bool) (idx : Nat)
    (rest : List TaskResponse) (h : nonterminalStatus r.status = true) :
    poll_task_result_aux task_id hasSink idx (r :: rest) =
      (poll_task_result_aux task_id hasSink (if hasSink then idx + 1 else idx) rest).map
        (fun p => (stepEvs task_id hasSink idx ++ [Ev.delay 3000] ++ p.1, p.2)) := by
  obtain ⟨h1, h2⟩ := nonterminal_elim h
  simp only [poll_task_result_aux, stepEvs, h1, h2, Bool.false_eq_true, if_false]
  cases poll_task_result_aux task_id hasSink (if hasSink then idx + 1 else idx) rest with
  | none => rfl
  | some p => cases p; simp

/-- Filtering the GETs out of one iteration's events gives the one GET. -/
lemma stepEvs_filter_isGet (task_id : String) (hasSink : Bool) (idx : Nat) :
    (stepEvs task_id hasSink idx).filter Ev.isGet = [Ev.get (taskUrl task_id)] := by
  cases hasSink <;> simp [stepEvs, Ev.isGet]

/-- One iteration's events contain no delay. -/
lemma stepEvs_filter_isDelay (task_id : String) (hasSink : Bool) (idx : Nat) :
    (stepEvs task_id hasSink idx).filter Ev.isDelay = [] := by
  cases hasSink <;> simp [stepEvs, Ev.isDelay]

/-- Trace shape of a run over non-terminal responses followed by a
terminal-success response: the loop returns that response's `result`,
having issued one GET per consumed response and one 3000 ms delay per
non-terminal response, no matter what responses would follow. -/
lemma aux_success_trace (task_id : String) (hasSink : Bool)
    (front : List TaskResponse) (last : TaskResponse) (rest : List TaskResponse) (idx : Nat)
    (hf : ∀ r ∈ front, nonterminalStatus r.status = true)
    (hl : isTerminalSuccess last.status = true) :
    ∃ evs, poll_task_result_aux task_id hasSink idx (front ++ last :: rest) =
        some (evs, .success last.result) ∧
      (evs.filter Ev.isGet).length = front.length + 1 ∧
      evs.filter Ev.isDelay = List.replicate front.length (Ev.delay 3000) := by
  induction front generalizing idx with
  | nil =>
    exact ⟨_, aux_terminal task_id hasSink idx rest hl,
      by simp [stepEvs_filter_isGet], by simp [stepEvs_filter_isDelay]⟩
  | cons r front ih =>
    obtain ⟨evs, he, hg, hd⟩ :=
      ih (if hasSink then idx + 1 else idx) (fun x hx => hf x (List.mem_cons_of_mem _ hx))
    refine ⟨stepEvs task_id hasSink idx ++ [Ev.delay 3000] ++ evs, ?_, ?_, ?_⟩
    · rw [List.cons_append, aux_cons_nonterminal task_id hasSink idx _
        (hf r (List.mem_cons_self _ _)), he]
      rfl
    · simp [List.filter_append, stepEvs_filter_isGet, Ev.isGet, hg]
    · simp [List.filter_append, stepEvs_filter_isDelay, Ev.isDelay, hd,
        List.replicate_succ]

/-- Trace shape of a run over non-terminal responses followed by a
`failed` response: the loop throws the failure message built from the
task id and the response's `error`, having issued one GET per consumed
response and one delay per non-terminal response, no matter what
responses would follow. -/
lemma aux_failed_trace (task_id : String) (hasSink : Bool)
    (front : List TaskResponse) (last : TaskResponse) (rest : List TaskResponse) (idx : Nat)
    (hf : ∀ r ∈ front, nonterminalStatus r.status = true)
    (hl : last.status = "failed") :
    ∃ evs, poll_task_result_aux task_id hasSink idx (front ++ last :: rest) =
        some (evs, .failed ("Task " ++ task_id ++ " failed: " ++ last.error)) ∧
      (evs.filter Ev.isGet).length = front.length + 1 ∧
      evs.filter Ev.isDelay = List.replicate front.length (Ev.delay 3000) := by
  induction front generalizing idx with
  | nil =>
    exact ⟨_, aux_failed task_id hasSink idx rest hl,
      by simp [stepEvs_filter_isGet], by simp [stepEvs_filter_isDelay]⟩
  | cons r front ih =>
    obtain ⟨evs, he, hg, hd⟩ :=
      ih (if hasSink then idx + 1 else idx) (fun x hx => hf x (List.mem_cons_of_mem _ hx))
    refine ⟨stepEvs task_id hasSink idx ++ [Ev.delay 3000] ++ evs, ?_, ?_, ?_⟩
    · rw [List.cons_append, aux_cons_nonterminal task_id hasSink idx _
        (hf r (List.mem_cons_self _ _)), he]
      rfl
    · simp [List.filter_append, stepEvs_filter_isGet, Ev.isGet, hg]
    · simp [List.filter_append, stepEvs_filter_isDelay, Ev.isDelay, hd,
        List.replicate_succ]

/-! ## Claims about the poll loop -/

/-- C1: for a polled status sequence of `n` non-terminal responses
followed by a `finalized` or `awaiting` response, `poll_task_result`
performs exactly `n + 1` GET requests separated by exactly `n` fixed
3000 ms delays and returns exactly the `result` field of the terminal
response — regardless of any further responses the remote would give. -/
theorem poll_returns_terminal_result (task_id : String) (hasSink : Bool)
    (front : List TaskResponse) (last : TaskResponse) (rest : List TaskResponse)
    (hf : ∀ r ∈ front, nonterminalStatus r.status = true)
    (hl : isTerminalSuccess last.status = true) :
    ∃ evs, poll_task_result task_id hasSink (front ++ last :: rest) =
        some (evs, .success last.result) ∧
      (evs.filter Ev.isGet).length = front.length + 1 ∧
      evs.filter Ev.isDelay = List.replicate front.length (Ev.delay 3000) :=
  aux_success_trace task_id hasSink front last rest 0 hf hl

/-- C1 witness: statuses `pending`, `pending`, `finalized` with result
`{"x":1}` for task `"t1"` give back `{"x":1}` after 3 GETs and 2 delays. -/
theorem poll_returns_terminal_result_witness :
    (∀ r ∈ ([⟨"pending", .null, ""⟩, ⟨"pending", .null, ""⟩] : List TaskResponse),
      nonterminalStatus r.status = true) ∧
    isTerminalSuccess "finalized" = true ∧
    ∃ evs, poll_task_result "t1" true
        ([⟨"pending", .null, ""⟩, ⟨"pending", .null, ""⟩] ++
          [(⟨"finalized", .obj [("x", .num 1)], ""⟩ : TaskResponse)]) =
        some (evs, .success (.obj [("x", .num 1)])) ∧
      (evs.filter Ev.isGet).length = 3 ∧
      evs.filter Ev.isDelay = List.replicate 2 (Ev.delay 3000) :=
  ⟨by decide, by decide,
    by simpa using (poll_returns_terminal_result "t1" true
      [⟨"pending", .null, ""⟩, ⟨"pending", .null, ""⟩]
      ⟨"finalized", .obj [("x", .num 1)], ""⟩ [] (by decide) (by decide))⟩

/-- C2: for a polled status sequence that reaches `failed` at iteration
`k` (after `k - 1` non-terminal responses), `poll_task_result` performs
exactly `k` GET requests and `k - 1` delays and throws the error message
built from the task id and the exact `error` string of that response,
with no further poll after observing `failed` — regardless of any
further responses the remote would give. -/
theorem poll_failed_throws (task_id : String) (hasSink : Bool)
    (front : List TaskResponse) (last : TaskResponse) (rest : List TaskResponse)
    (hf : ∀ r ∈ front, nonterminalStatus r.status = true)
    (hl : last.status = "failed") :
    ∃ evs, poll_task_result task_id hasSink (front ++ last :: rest) =
        some (evs, .failed ("Task " ++ task_id ++ " failed: " ++ last.error)) ∧
      (evs.filter Ev.isGet).length = front.length + 1 ∧
      evs.filter Ev.isDelay = List.replicate front.length (Ev.delay 3000) :=
  aux_failed_trace task_id hasSink front last rest 0 hf hl

/-- C2 witness: `failed` with error `"blocked"` on the very first poll of
task `"t2"` throws `Task t2 failed: blocked` after 1 GET and 0 delays. -/
theorem poll_failed_throws_witness :
    (∀ r ∈ ([] : List TaskResponse), nonterminalStatus r.status = true) ∧
    ("failed" : String) = "failed" ∧
    ∃ evs, poll_task_result "t2" true
        ([] ++ [(⟨"failed", .null, "blocked"⟩ : TaskResponse)]) =
        some (evs, .failed "Task t2 failed: blocked") ∧
      (evs.filter Ev.isGet).length = 1 ∧
      evs.filter Ev.isDelay = List.replicate 0 (Ev.delay 3000) :=
  ⟨by decide, rfl,
    by simpa using (poll_failed_throws "t2" true [] ⟨"failed", .null, "blocked"⟩ []
      (by decide) rfl)⟩

/-- Reduction of an `if` over the boolean literal `true`. -/
lemma ite_bool_true {α : Type} (a b : α) : (if (true : Bool) = true then a else b) = a := rfl

/-- Reduction of an `if` over the boolean literal `false`. -/
lemma ite_bool_false {α : Type} (a b : α) : (if (false : Bool) = true then a else b) = b := rfl

/-- Dropping progress events commutes with filtering for GETs. -/
lemma filter_isGet_strip (evs : List Ev) :
    (evs.filter (fun e => !e.isProgress)).filter Ev.isGet = evs.filter Ev.isGet := by
  rw [List.filter_filter]
  refine List.filter_congr fun e _ => ?_
  cases e <;> rfl

/-- Up to progress events, a run of the loop does not depend on the
starting value of the loop counter. -/
lemma aux_idx_strip (task_id : String) (hasSink : Bool) (rs : List TaskResponse)
    (idx jdx : Nat) :
    (poll_task_result_aux task_id hasSink idx rs).map
        (fun p => (p.1.filter (fun e => !e.isProgress), p.2)) =
      (poll_task_result_aux task_id hasSink jdx rs).map
        (fun p => (p.1.filter (fun e => !e.isProgress), p.2)) := by
  induction rs generalizing idx jdx with
  | nil => rfl
  | cons r rs ih =>
    by_cases h1 : isTerminalSuccess r.status = true
    · rw [aux_terminal task_id hasSink idx rs h1, aux_terminal task_id hasSink jdx rs h1]
      cases hasSink
      · rfl
      · simp [stepEvs, Ev.isProgress]
    · by_cases h2 : r.status = "failed"
      · rw [aux_failed task_id hasSink idx rs h2, aux_failed task_id hasSink jdx rs h2]
        cases hasSink
        · rfl
        · simp [stepEvs, Ev.isProgress]
      · have hn : nonterminalStatus r.status = true := by
          simp [nonterminalStatus, Bool.not_eq_true] at h1 ⊢
          exact ⟨h1, h2⟩
        rw [aux_cons_nonterminal task_id hasSink idx rs hn,
          aux_cons_nonterminal task_id hasSink jdx rs hn]
        have key := ih (if hasSink then idx + 1 else idx) (if hasSink then jdx + 1 else jdx)
        cases he : poll_task_result_aux task_id hasSink (if hasSink then idx + 1 else idx) rs with
        | none =>
          cases he' : poll_task_result_aux task_id hasSink (if hasSink then jdx + 1 else jdx) rs with
          | none => rfl
          | some q => rw [he, he'] at key; simp at key
        | some p =>
          cases he' : poll_task_result_aux task_id hasSink (if hasSink then jdx + 1 else jdx) rs with
          | none => rw [he, he'] at key; simp at key
          | some q =>
            rw [he, he'] at key
            simp only [Option.map_some', Option.some_inj, Prod.mk.injEq] at key ⊢
            obtain ⟨k1, k2⟩ := key
            refine ⟨?_, k2⟩
            simp only [List.filter_append, k1]
            cases hasSink <;> simp [stepEvs, Ev.isProgress]

/-- Running without a progress sink gives the same outcome as running
with one, with exactly the progress events removed from the trace. -/
lemma aux_nosink_strip (task_id : String) (rs : List TaskResponse) (idx jdx : Nat) :
    poll_task_result_aux task_id false jdx rs =
      (poll_task_result_aux task_id true idx rs).map
        (fun p => (p.1.filter (fun e => !e.isProgress), p.2)) := by
  induction rs generalizing idx jdx with
  | nil => rfl
  | cons r rs ih =>
    by_cases h1 : isTerminalSuccess r.status = true
    · rw [aux_terminal task_id false jdx rs h1, aux_terminal task_id true idx rs h1]
      simp [stepEvs, Ev.isProgress]
    · by_cases h2 : r.status = "failed"
      · rw [aux_failed task_id false jdx rs h2, aux_failed task_id true idx rs h2]
        simp [stepEvs, Ev.isProgress]
      · have hn : nonterminalStatus r.status = true := by
          simp [nonterminalStatus, Bool.not_eq_true] at h1 ⊢
          exact ⟨h1, h2⟩
        rw [aux_cons_nonterminal task_id false jdx rs hn,
          aux_cons_nonterminal task_id true idx rs hn,
          ite_bool_false (jdx + 1) jdx, ite_bool_true (idx + 1) idx, ih (idx + 1) jdx]
        cases poll_task_result_aux task_id true (idx + 1) rs with
        | none => rfl
        | some p => simp [stepEvs, Ev.isProgress, List.filter_append]

/-- With a sink present, the progress events of a run started at counter
`idx` are, in order, `idx, idx + 1, ...` paired with the fixed total 20,
one per GET. -/
lemma aux_progress_trace (task_id : String) (rs : List TaskResponse) (idx : Nat)
    (evs : List Ev) (out : PollOutcome)
    (h : poll_task_result_aux task_id true idx rs = some (evs, out)) :
    evs.filter Ev.isProgress =
      (List.range ((evs.filter Ev.isGet).length)).map (fun k => Ev.progress (idx + k) 20) := by
  induction rs generalizing idx evs with
  | nil => simp [poll_task_result_aux] at h
  | cons r rs ih =>
    by_cases h1 : isTerminalSuccess r.status = true
    · rw [aux_terminal task_id true idx rs h1] at h
      obtain ⟨rfl, rfl⟩ : stepEvs task_id true idx = evs ∧ PollOutcome.success r.result = out := by
        simpa using h
      simp [stepEvs, Ev.isProgress, Ev.isGet, List.range_succ]
    · by_cases h2 : r.status = "failed"
      · rw [aux_failed task_id true idx rs h2] at h
        obtain ⟨rfl, rfl⟩ :
            stepEvs task_id true idx = evs ∧
              PollOutcome.failed ("Task " ++ task_id ++ " failed: " ++ r.error) = out := by
          simpa using h
        simp [stepEvs, Ev.isProgress, Ev.isGet, List.range_succ]
      · have hn : nonterminalStatus r.status = true := by
          simp [nonterminalStatus, Bool.not_eq_true] at h1 ⊢
          exact ⟨h1, h2⟩
        rw [aux_cons_nonterminal task_id true idx rs hn,
          ite_bool_true (idx + 1) idx] at h
        cases he : poll_task_result_aux task_id true (idx + 1) rs with
        | none => rw [he] at h; simp at h
        | some p =>
          rw [he] at h
          obtain ⟨tail, out'⟩ := p
          simp only [Option.map_some', Option.some_inj, Prod.mk.injEq] at h
          obtain ⟨hevs, hout⟩ := h
          subst hout
          have htail := ih (idx + 1) tail he
          have hL : (stepEvs task_id true idx ++ [Ev.delay 3000] ++ tail).filter Ev.isProgress
              = Ev.progress idx 20 :: tail.filter Ev.isProgress := by
            simp [stepEvs, List.filter_append, Ev.isProgress]
          have hG : ((stepEvs task_id true idx ++ [Ev.delay 3000] ++ tail).filter
                Ev.isGet).length
              = (tail.filter Ev.isGet).length + 1 := by
            simp [stepEvs, List.filter_append, Ev.isGet, Ev.isProgress, Nat.add_comm]
          rw [← hevs, hL, hG, htail, List.range_succ_eq_map, List.map_cons, List.map_map]
          refine congrArg₂ List.cons (by simp) (List.map_congr_left fun k _ => ?_)
          exact congrArg (fun n => Ev.progress n 20) (by omega)

/-- C10: with a progress sink supplied, the k-th poll iteration (k ≥ 1)
reports progress value `k - 1` with the total fixed at 20 — the progress
events of a run are, in order, `0, 1, 2, ...` with total 20, one per GET,
increasing without any cap (so from the 22nd iteration on the value
exceeds the stated total 20); without a sink, no progress is reported and
the run is otherwise identical (same outcome, same other events). -/
theorem poll_progress_reporting (task_id : String) (rs : List TaskResponse)
    (evs : List Ev) (out : PollOutcome)
    (h : poll_task_result task_id true rs = some (evs, out)) :
    evs.filter Ev.isProgress =
      (List.range ((evs.filter Ev.isGet).length)).map (fun k => Ev.progress k 20) ∧
    (∀ k, k < (evs.filter Ev.isGet).length → Ev.progress k 20 ∈ evs) ∧
    poll_task_result task_id false rs =
      some (evs.filter (fun e => !e.isProgress), out) := by
  have h1 := aux_progress_trace task_id rs 0 evs out h
  simp only [Nat.zero_add] at h1
  refine ⟨h1, ?_, ?_⟩
  · intro k hk
    have : Ev.progress k 20 ∈ evs.filter Ev.isProgress := by
      rw [h1]
      exact List.mem_map.mpr ⟨k, List.mem_range.mpr hk, rfl⟩
    exact List.mem_of_mem_filter this
  · have hns : poll_task_result task_id false rs =
        (poll_task_result task_id true rs).map
          (fun p => (p.1.filter (fun e => !e.isProgress), p.2)) :=
      aux_nosink_strip task_id rs 0 0
    rw [hns, h]
    rfl

/-- C10 witness: a `pending` then `finalized` run reports progress 0 then
1 (total 20), and the sink-less run drops exactly those two events. -/
theorem poll_progress_reporting_witness :
    poll_task_result "t" true [⟨"pending", .null, ""⟩, ⟨"finalized", .null, ""⟩] =
      some ([Ev.get (taskUrl "t"), Ev.progress 0 20, Ev.delay 3000,
        Ev.get (taskUrl "t"), Ev.progress 1 20], .success .null) ∧
    ([Ev.get (taskUrl "t"), Ev.progress 0 20, Ev.delay 3000,
        Ev.get (taskUrl "t"), Ev.progress 1 20].filter Ev.isProgress =
      (List.range 2).map (fun k => Ev.progress k 20) ∧
    (∀ k, k < 2 → Ev.progress k 20 ∈ [Ev.get (taskUrl "t"), Ev.progress 0 20,
      Ev.delay 3000, Ev.get (taskUrl "t"), Ev.progress 1 20]) ∧
    poll_task_result "t" false [⟨"pending", .null, ""⟩, ⟨"finalized", .null, ""⟩] =
      some ([Ev.get (taskUrl "t"), Ev.delay 3000, Ev.get (taskUrl "t")], .success .null)) :=
  ⟨rfl, by
    simpa using (poll_progress_reporting "t"
      [⟨"pending", .null, ""⟩, ⟨"finalized", .null, ""⟩]
      [Ev.get (taskUrl "t"), Ev.progress 0 20, Ev.delay 3000,
        Ev.get (taskUrl "t"), Ev.progress 1 20] (.success .null) rfl)⟩

/-- The loop returns a `result` only after a prefix of non-terminal
statuses ending in a terminal-success status, and the returned value is
exactly that response's `result` field. -/
lemma aux_success_inv (task_id : String) (hasSink : Bool) :
    ∀ (rs : List TaskResponse) (idx : Nat) (evs : List Ev) (v : Json),
    poll_task_result_aux task_id hasSink idx rs = some (evs, .success v) →
    ∃ front last rest, rs = front ++ last :: rest ∧
      (∀ r ∈ front, nonterminalStatus r.status = true) ∧
      isTerminalSuccess last.status = true ∧ v = last.result := by
  intro rs
  induction rs with
  | nil => intro idx evs v h; simp [poll_task_result_aux] at h
  | cons r rs ih =>
    intro idx evs v h
    by_cases h1 : isTerminalSuccess r.status = true
    · rw [aux_terminal task_id hasSink idx rs h1] at h
      obtain ⟨-, hout⟩ : stepEvs task_id hasSink idx = evs ∧ PollOutcome.success r.result
          = PollOutcome.success v := by simpa using h
      exact ⟨[], r, rs, rfl, by simp, h1, (PollOutcome.success.injEq .. ▸ hout).symm⟩
    · by_cases h2 : r.status = "failed"
      · rw [aux_failed task_id hasSink idx rs h2] at h
        simp at h
      · have hn : nonterminalStatus r.status = true := by
          simp [nonterminalStatus, Bool.not_eq_true] at h1 ⊢
          exact ⟨h1, h2⟩
        rw [aux_cons_nonterminal task_id hasSink idx rs hn] at h
        cases he : poll_task_result_aux task_id hasSink
            (if hasSink then idx + 1 else idx) rs with
        | none => rw [he] at h; simp at h
        | some p =>
          rw [he] at h
          obtain ⟨tail, out'⟩ := p
          simp only [Option.map_some', Option.some_inj, Prod.mk.injEq] at h
          obtain ⟨-, hout⟩ := h
          subst hout
          obtain ⟨front, last, rest, hrs, hfront, hlast, hv⟩ :=
            ih (if hasSink then idx + 1 else idx) tail _ he
          refine ⟨r :: front, last, rest, by rw [hrs, List.cons_append], ?_, hlast, hv⟩
          intro x hx
          rcases List.mem_cons.mp hx with hx | hx
          · exact hx ▸ hn
          · exact hfront x hx

/-- C7: the poll loop returns a result only when the observed status is
terminal-success (any returned value is the `result` of the first
`finalized`/`awaiting` response, reached through non-terminal statuses
only); after observing `failed` it issues no further poll request; and a
non-terminal status always leads to a further poll iteration — the
outcome then comes from the remaining responses, with one extra GET,
never from the non-terminal response itself. -/
theorem poll_terminal_invariant (task_id : String) (hasSink : Bool) :
    (∀ (rs : List TaskResponse) (evs : List Ev) (v : Json),
      poll_task_result task_id hasSink rs = some (evs, .success v) →
      ∃ front last rest, rs = front ++ last :: rest ∧
        (∀ r ∈ front, nonterminalStatus r.status = true) ∧
        isTerminalSuccess last.status = true ∧ v = last.result) ∧
    (∀ (front : List TaskResponse) (last : TaskResponse) (rest : List TaskResponse),
      (∀ r ∈ front, nonterminalStatus r.status = true) → last.status = "failed" →
      ∃ evs m, poll_task_result task_id hasSink (front ++ last :: rest) =
          some (evs, .failed m) ∧
        (evs.filter Ev.isGet).length = front.length + 1) ∧
    (∀ (r : TaskResponse) (rest : List TaskResponse) (evs : List Ev) (out : PollOutcome),
      nonterminalStatus r.status = true →
      poll_task_result task_id hasSink (r :: rest) = some (evs, out) →
      ∃ evs0, poll_task_result task_id hasSink rest = some (evs0, out) ∧
        (evs.filter Ev.isGet).length = (evs0.filter Ev.isGet).length + 1) := by
  refine ⟨fun rs evs v h => aux_success_inv task_id hasSink rs 0 evs v h,
    fun front last rest hf hl => ?_, fun r rest evs out hn h => ?_⟩
  · obtain ⟨evs, he, hg, -⟩ :=
      aux_failed_trace task_id hasSink front last rest 0 hf hl
    exact ⟨evs, _, he, hg⟩
  · rw [poll_task_result, aux_cons_nonterminal task_id hasSink 0 rest hn] at h
    cases he : poll_task_result_aux task_id hasSink (if hasSink then 0 + 1 else 0) rest with
    | none => rw [he] at h; simp at h
    | some p =>
      rw [he] at h
      obtain ⟨tail, out'⟩ := p
      simp only [Option.map_some', Option.some_inj, Prod.mk.injEq] at h
      obtain ⟨hevs, hout⟩ := h
      subst hout
      have hshift := aux_idx_strip task_id hasSink rest (if hasSink then 0 + 1 else 0) 0
      rw [he] at hshift
      cases he0 : poll_task_result_aux task_id hasSink 0 rest with
      | none => rw [he0] at hshift; simp at hshift
      | some q =>
        rw [he0] at hshift
        obtain ⟨tail0, out0⟩ := q
        simp only [Option.map_some', Option.some_inj, Prod.mk.injEq] at hshift
        obtain ⟨hstrip, hout0⟩ := hshift
        refine ⟨tail0, by rw [poll_task_result, he0, hout0], ?_⟩
        have hcount : (tail.filter Ev.isGet).length = (tail0.filter Ev.isGet).length := by
          rw [← filter_isGet_strip tail, ← filter_isGet_strip tail0, hstrip]
        rw [← hevs]
        simp [List.filter_append, stepEvs_filter_isGet, Ev.isGet, hcount, Nat.add_comm]

/-- C7 witness: one `pending` response then `failed` gives a thrown
failure after exactly 2 GETs, instantiating the never-retry-after-failed
conjunct. -/
theorem poll_terminal_invariant_witness :
    (∀ r ∈ ([⟨"pending", .null, ""⟩] : List TaskResponse),
      nonterminalStatus r.status = true) ∧
    (TaskResponse.mk "failed" .null "x").status = "failed" ∧
    ∃ evs m, poll_task_result "t" true
        ([⟨"pending", .null, ""⟩] ++ (⟨"failed", .null, "x"⟩ : TaskResponse) :: []) =
        some (evs, .failed m) ∧
      (evs.filter Ev.isGet).length = 2 :=
  ⟨by decide, rfl,
    by simpa using ((poll_terminal_invariant "t" true).2.1
      [⟨"pending", .null, ""⟩] ⟨"failed", .null, "x"⟩ [] (by decide) rfl)⟩

/-! ## Claims about the instruction dispatcher -/

/-- C4: on an HTTP non-success dispatch response, the dispatcher throws
the `Failed to send instructions` error whose message embeds the status
code, status text and body text verbatim, and the poller is never
invoked — the run's trace holds the POST alone, no GET. -/
theorem dispatch_http_error (executionId : String) (resp : HttpResponse)
    (pollResponses : List TaskResponse) (hasSink : Bool) (h : resp.ok = false) :
    send_session_instructions executionId resp pollResponses hasSink =
      some ([Ev.post (instructionsUrl executionId)],
        .error (.requestFailed ("Failed to send instructions: " ++ toString resp.status
          ++ " " ++ resp.statusText ++ " - " ++ resp.bodyText))) ∧
    [Ev.post (instructionsUrl executionId)].filter Ev.isGet = [] := by
  refine ⟨?_, rfl⟩
  simp [send_session_instructions, h]

/-- C4 witness: a 500 response with status text `Server Error` and body
`boom` produces exactly that error message and no poll request. -/
theorem dispatch_http_error_witness :
    (HttpResponse.mk false 500 "Server Error" "boom" .null).ok = false ∧
    (send_session_instructions "e1" ⟨false, 500, "Server Error", "boom", .null⟩ [] true =
      some ([Ev.post (instructionsUrl "e1")],
        .error (.requestFailed "Failed to send instructions: 500 Server Error - boom")) ∧
    [Ev.post (instructionsUrl "e1")].filter Ev.isGet = []) :=
  ⟨rfl, by
    simpa using (dispatch_http_error "e1" ⟨false, 500, "Server Error", "boom", .null⟩
      [] true rfl)⟩

/-- C3: on an HTTP-successful dispatch whose parsed body carries a
non-empty string `executionId`, the dispatcher returns the
stringification of an object whose `executionId` field is that identifier
and whose `result` field is what the subsequent poll returned; and in the
run's trace the fixed 1000 ms settling delay precedes every GET (no poll
request before the first delay). -/
theorem dispatch_success (executionId tid : String) (resp : HttpResponse)
    (pollResponses : List TaskResponse) (hasSink : Bool)
    (pevs : List Ev) (r : Json)
    (hok : resp.ok = true)
    (hid : resp.body.lookup "executionId" = some (.str tid))
    (hne : tid ≠ "")
    (hpoll : poll_task_result tid hasSink pollResponses = some (pevs, .success r)) :
    send_session_instructions executionId resp pollResponses hasSink =
      some (Ev.post (instructionsUrl executionId) :: Ev.delay 1000 :: pevs,
        .ok (Json.stringify (.obj [("executionId", .str tid), ("result", r)]))) ∧
    (Json.obj [("executionId", .str tid), ("result", r)]).lookup "executionId"
      = some (.str tid) ∧
    (Json.obj [("executionId", .str tid), ("result", r)]).lookup "result" = some r ∧
    ((Ev.post (instructionsUrl executionId) :: Ev.delay 1000 :: pevs).takeWhile
        (fun e => !e.isDelay)).all (fun e => !e.isGet) = true := by
  have htr : (Json.str tid).truthy = true := by
    simp [Json.truthy, hne]
  have htid : (Json.str tid).templateString = tid := rfl
  refine ⟨?_, rfl, rfl, ?_⟩
  · simp [send_session_instructions, hok, hid, htr, htid, hpoll]
  · simp [List.takeWhile, Ev.isDelay, Ev.isGet]

/-- C3 witness: dispatch against `"e1"` answering with executionId
`"t9"`, then a `finalized` poll with result 7, returns the serialized
`executionId`/`result` object and polls only after the settling delay. -/
theorem dispatch_success_witness :
    (HttpResponse.mk true 200 "OK" "" (.obj [("executionId", .str "t9")])).ok = true ∧
    (HttpResponse.mk true 200 "OK" ""
      (.obj [("executionId", .str "t9")])).body.lookup "executionId" = some (.str "t9") ∧
    ("t9" : String) ≠ "" ∧
    poll_task_result "t9" true [⟨"finalized", .num 7, ""⟩] =
      some ([Ev.get (taskUrl "t9"), Ev.progress 0 20], .success (.num 7)) ∧
    (send_session_instructions "e1" ⟨true, 200, "OK", "", .obj [("executionId", .str "t9")]⟩
        [⟨"finalized", .num 7, ""⟩] true =
      some (Ev.post (instructionsUrl "e1") :: Ev.delay 1000 ::
          [Ev.get (taskUrl "t9"), Ev.progress 0 20],
        .ok (Json.stringify (.obj [("executionId", .str "t9"), ("result", .num 7)]))) ∧
    (Json.obj [("executionId", .str "t9"), ("result", .num 7)]).lookup "executionId"
      = some (.str "t9") ∧
    (Json.obj [("executionId", .str "t9"), ("result", .num 7)]).lookup "result"
      = some (.num 7) ∧
    ((Ev.post (instructionsUrl "e1") :: Ev.delay 1000 ::
        [Ev.get (taskUrl "t9"), Ev.progress 0 20]).takeWhile
        (fun e => !e.isDelay)).all (fun e => !e.isGet) = true) :=
  ⟨rfl, rfl, by decide, rfl,
    dispatch_success "e1" "t9" ⟨true, 200, "OK", "", .obj [("executionId", .str "t9")]⟩
      [⟨"finalized", .num 7, ""⟩] true [Ev.get (taskUrl "t9"), Ev.progress 0 20]
      (.num 7) rfl rfl (by decide) rfl⟩

/-- C5: on an HTTP-successful dispatch whose parsed body has no usable
execution identifier (the field is absent or falsy), the dispatcher
throws the missing-identifier error, and the run's trace shows the fixed
1000 ms settling delay elapsed before the failure is signalled. -/
theorem dispatch_missing_identifier (executionId : String) (resp : HttpResponse)
    (pollResponses : List TaskResponse) (hasSink : Bool)
    (hok : resp.ok = true)
    (hid : resp.body.lookup "executionId" = none ∨
      ∃ v, resp.body.lookup "executionId" = some v ∧ v.truthy = false) :
    send_session_instructions executionId resp pollResponses hasSink =
      some ([Ev.post (instructionsUrl executionId), Ev.delay 1000],
        .error (.missingIdentifier noTaskIdMsg)) := by
  rcases hid with hid | ⟨v, hid, hv⟩
  · simp [send_session_instructions, hok, hid]
  · simp [send_session_instructions, hok, hid, hv]

/-- C5 witness: an HTTP 200 dispatch whose body is `{}` signals the
missing-identifier error, with the settling delay in the trace before
the failure. -/
theorem dispatch_missing_identifier_witness :
    (HttpResponse.mk true 200 "OK" "" (.obj [])).ok = true ∧
    ((HttpResponse.mk true 200 "OK" "" (.obj [])).body.lookup "executionId" = none ∨
      ∃ v, (HttpResponse.mk true 200 "OK" "" (.obj [])).body.lookup "executionId" = some v ∧
        v.truthy = false) ∧
    send_session_instructions "e1" ⟨true, 200, "OK", "", .obj []⟩ [] true =
      some ([Ev.post (instructionsUrl "e1"), Ev.delay 1000],
        .error (.missingIdentifier noTaskIdMsg)) :=
  ⟨rfl, Or.inl rfl,
    dispatch_missing_identifier "e1" ⟨true, 200, "OK", "", .obj []⟩ [] true rfl (Or.inl rfl)⟩

/-! ## Claims about the tool invocation wrapper -/

/-- C6: on a caught error carrying an embedded HTTP response with status
404 and empty body text (whether the body read succeeded with `""` or
itself failed), the wrapper re-signals an error whose message is
`HTTP 404: ` followed by the response's status text if non-empty,
otherwise the fixed fallback `Unknown HTTP error`; with a non-empty body
text the message carries the body text instead; and on every failure the
wrapper re-signals some error — no error is suppressed. -/
theorem tool_wrapper_error_translation (stats : List (String × Nat)) (name : String) :
    (∀ (e : JsError) (r : ErrorResponse), e.response = some r → r.status = 404 →
      (r.textResult = .ok "" ∨ r.textResult = .error ()) →
      (create_tool_fn (α := String) stats name (.error e)).2 =
        .error (.httpError ("HTTP 404: " ++
          (if r.statusText == "" then "Unknown HTTP error" else r.statusText)))) ∧
    (∀ (e : JsError) (r : ErrorResponse) (t : String), e.response = some r →
      r.textResult = .ok t → t ≠ "" →
      (create_tool_fn (α := String) stats name (.error e)).2 =
        .error (.httpError ("HTTP " ++ toString r.status ++ ": " ++ t))) ∧
    (∀ (e : JsError), isSignalledError
      ((create_tool_fn (α := String) stats name (.error e)).2) = true) := by
  refine ⟨fun e r hr hst htxt => ?_, fun e r t hr ht hne => ?_, fun e => ?_⟩
  · have hbranch : (create_tool_fn (α := String) stats name (.error e)).2 =
        .error (.httpError ("HTTP " ++ toString r.status ++ ": " ++
          (if r.statusText == "" then "Unknown HTTP error" else r.statusText))) := by
      rcases htxt with h | h <;> simp [create_tool_fn, hr, h]
    rw [hbranch, hst]
    rfl
  · have hlen : (t.length != 0) = true := by
      simp only [bne_iff_ne, ne_eq]
      intro hc
      exact hne (String.ext (List.length_eq_zero.mp (String.length_data t ▸ hc)))
    simp [create_tool_fn, hr, ht, hlen]
  · cases hr : e.response with
    | some r =>
      simp only [create_tool_fn, hr]
      split
      · rfl
      · rfl
    | none =>
      simp only [create_tool_fn, hr]
      split
      · rfl
      · rfl

/-- C6 witness: a 404 with empty status text and an empty body read
signals `HTTP 404: Unknown HTTP error`; a 404 with body `nope` signals
`HTTP 404: nope`; and a plain error is re-signalled. -/
theorem tool_wrapper_error_translation_witness :
    ((JsError.mk "Error" "" false (some ⟨404, "", .ok ""⟩)).response =
      some ⟨404, "", .ok ""⟩) ∧
    ((ErrorResponse.mk 404 "" (.ok "")).status = 404) ∧
    ((ErrorResponse.mk 404 "" (.ok "")).textResult = .ok "" ∨
      (ErrorResponse.mk 404 "" (.ok "")).textResult = .error ()) ∧
    (create_tool_fn (α := String) [] "tool"
        (.error (JsError.mk "Error" "" false (some ⟨404, "", .ok ""⟩)))).2 =
      .error (.httpError ("HTTP 404: " ++
        (if ((ErrorResponse.mk 404 "" (.ok "")).statusText == "")
          then "Unknown HTTP error"
          else (ErrorResponse.mk 404 "" (.ok "")).statusText))) :=
  ⟨rfl, rfl, Or.inl rfl,
    (tool_wrapper_error_translation [] "tool").1
      (JsError.mk "Error" "" false (some ⟨404, "", .ok ""⟩)) ⟨404, "", .ok ""⟩
      rfl rfl (Or.inl rfl)⟩

/-! ## Claims about the tools at the host boundary -/

/-- C8: the first `start_new_session` variant, on a task-creation
response with no execution identifier (body `{}`), returns the raw
parsed object — a non-string structured value — to the host instead of a
JSON-encoded string or a thrown error. -/
theorem start_new_session_v1_returns_raw_object :
    start_new_session_v1 (Json.obj []) [] false =
      some ([Ev.post tasksUrl], .ok (.json (Json.obj []))) ∧
    ToolReturn.isString (.json (Json.obj [])) = false :=
  ⟨rfl, rfl⟩

/-! ## Claims about the session registry -/

/-- In a registry none of whose keys is `id`, a keyed conditional update
maps every entry to itself. -/
lemma registry_map_untouched (l : Registry) (id : String)
    (g : String × SessionRecord → String × SessionRecord)
    (h : ∀ p ∈ l, p.1 ≠ id) :
    (l.map fun p => if p.1 = id then g p else p) = l := by
  induction l with
  | nil => rfl
  | cons x l ih =>
    simp [h x (List.mem_cons_self x l),
      ih fun p hp => h p (List.mem_cons_of_mem x hp)]

/-- In a registry none of whose keys is `id`, filtering for `id` gives
the empty list. -/
lemma registry_filter_none (l : Registry) (id : String)
    (h : ∀ p ∈ l, p.1 ≠ id) :
    l.filter (fun p => p.1 == id) = [] := by
  induction l with
  | nil => rfl
  | cons x l ih =>
    simp [List.filter_cons, h x (List.mem_cons_self x l),
      ih fun p hp => h p (List.mem_cons_of_mem x hp)]

/-- A key absent from the registry differs from every entry's key. -/
lemma not_mem_keys_ne (l : Registry) (id : String) (h : id ∉ l.map Prod.fst) :
    ∀ p ∈ l, p.1 ≠ id :=
  fun p hp hpe => h (hpe ▸ List.mem_map.mpr ⟨p, hp, rfl⟩)

/-- The function `track_session` skips past an entry whose key differs from the
tracked id. -/
lemma track_cons_ne (k : String) (v : SessionRecord) (reg : Registry) (id : String)
    (t1 : Nat) (hk : k ≠ id) :
    track_session ((k, v) :: reg) id t1 = (k, v) :: track_session reg id t1 := by
  simp only [track_session, List.any_cons]
  rcases Bool.eq_false_or_eq_true (reg.any fun p => p.1 == id) with h | h <;>
    simp [h, hk]

/-- After `track_session(id)` then `update_activity(id)`, a registry with
pairwise distinct keys holds exactly one record for `id`, with `created`
set by the track and `lastActivity` set by the touch. -/
lemma track_touch_filter (id : String) (t1 t2 : Nat) :
    ∀ (reg : Registry), (reg.map Prod.fst).Nodup →
    (update_activity (track_session reg id t1) id t2).filter (fun p => p.1 == id) =
      [(id, ⟨t1, t2⟩)] := by
  intro reg
  induction reg with
  | nil =>
    intro _
    simp [track_session, update_activity, List.filter]
  | cons kv reg ih =>
    intro hnd
    obtain ⟨k, v⟩ := kv
    rw [List.map_cons, List.nodup_cons] at hnd
    have hknotin : k ∉ reg.map Prod.fst := hnd.1
    by_cases hk : k = id
    · subst hk
      have hno := not_mem_keys_ne reg k hknotin
      have htrack : track_session ((k, v) :: reg) k t1 = (k, ⟨t1, t1⟩) :: reg := by
        simp only [track_session, List.any_cons, beq_self_eq_true, Bool.true_or,
          if_true, List.map_cons]
        simp [registry_map_untouched reg k _ hno]
      have htouch : update_activity ((k, ⟨t1, t1⟩) :: reg) k t2 =
          (k, ⟨t1, t2⟩) :: reg := by
        simp only [update_activity, List.map_cons]
        simp [registry_map_untouched reg k _ hno]
      rw [htrack, htouch]
      simp [List.filter_cons, registry_filter_none reg k hno]
    · rw [track_cons_ne k v reg id t1 hk]
      have htouch : update_activity ((k, v) :: track_session reg id t1) id t2 =
          (k, v) :: update_activity (track_session reg id t1) id t2 := by
        simp only [update_activity, List.map_cons]
        simp [hk]
      rw [htouch]
      simp [List.filter_cons, hk, ih hnd.2]

/-- C9: tracking an id and then touching it leaves exactly one record for
that id, whose `created` is the track time and `lastActivity` the (no
earlier) touch time; and touching an id that is not in the registry
leaves the registry's contents unchanged — it never creates an entry. -/
theorem session_registry_track_touch (reg : Registry) (id : String) (t1 t2 : Nat)
    (hnd : (reg.map Prod.fst).Nodup) (hle : t1 ≤ t2) :
    ((get_sessions (update_activity (track_session reg id t1) id t2)).filter
        (fun p => p.1 == id) = [(id, ⟨t1, t2⟩)] ∧
      (SessionRecord.mk t1 t2).created ≤ (SessionRecord.mk t1 t2).lastActivity) ∧
    (∀ (reg2 : Registry) (id2 : String) (t : Nat), id2 ∉ reg2.map Prod.fst →
      update_activity reg2 id2 t = reg2) := by
  refine ⟨⟨track_touch_filter id t1 t2 reg hnd, hle⟩, fun reg2 id2 t h => ?_⟩
  simp only [update_activity]
  simp [registry_map_untouched reg2 id2 _ (not_mem_keys_ne reg2 id2 h)]

/-- C9 witness: track then touch `"s1"` in an empty registry at times 3
and 5 gives the single record `("s1", {created := 3, lastActivity := 5})`,
and touching an unknown id is a no-op. -/
theorem session_registry_track_touch_witness :
    (([] : Registry).map Prod.fst).Nodup ∧ (3 : Nat) ≤ 5 ∧
    (((get_sessions (update_activity (track_session [] "s1" 3) "s1" 5)).filter
        (fun p => p.1 == "s1") = [("s1", ⟨3, 5⟩)] ∧
      (SessionRecord.mk 3 5).created ≤ (SessionRecord.mk 3 5).lastActivity) ∧
    (∀ (reg2 : Registry) (id2 : String) (t : Nat), id2 ∉ reg2.map Prod.fst →
      update_activity reg2 id2 t = reg2)) :=
  ⟨by simp, by decide, session_registry_track_touch [] "s1" 3 5 (by simp) (by decide)⟩

end BrowserAI
